import Mathlib

/-!
Verification of the stm32-board robot gateway (cpp_gateway) against its
natural-language specification.  The C++ sources are shallowly embedded:
machine integers become Nat/Int with explicit `% 2^w` where wrap-around can
occur, C++ `double` becomes ℚ (the code only copies, compares and divides
these values by constants), IEEE-754 `float` fields that are only moved
bit-for-bit through codecs are represented by their 32-bit patterns (Nat),
and stateful worker loops become pure per-cycle functions from their inputs
(config snapshot, mailbox values, clock readings) to the outputs they write.
-/

namespace StmGateway

/-! ## Core data model (src/cpp_gateway/include/core/basic.hpp) -/

/-- core::MotorCommands: four int16_t motor values (semantic range -100..100,
127 = keep-previous sentinel at the serial layer). -/
structure MotorCommands where
  m1 : Int := 0
  m2 : Int := 0
  m3 : Int := 0
  m4 : Int := 0
deriving DecidableEq, Repr

/-- core::Actions: motors plus one-shot beep (uint8) and flag bits (uint8). -/
structure Actions where
  motors : MotorCommands := {}
  beep_ms : Nat := 0
  flags : Nat := 0
deriving DecidableEq, Repr

/-- gateway::ControlMode (include/gateway/enums.hpp). -/
inductive ControlMode where
  | PASS_THROUGH_CMD
  | AUTONOMOUS
  | AUTONOMOUS_WITH_REMOTE_SETPOINT
deriving DecidableEq, Repr

/-- gateway::UsbTimeoutMode (include/gateway/enums.hpp). -/
inductive UsbTimeoutMode where
  | ENFORCE
  | DISABLE
deriving DecidableEq, Repr

/-- gateway::EventType (include/gateway/commands.hpp). -/
inductive EventType where
  | BEEP
  | FLAG_RISE
  | CONFIG_APPLIED
deriving DecidableEq, Repr

/-- gateway::EventCmd (include/gateway/commands.hpp). -/
structure EventCmd where
  type : EventType := .BEEP
  seq : Nat := 0
  data0 : Nat := 0
  data1 : Nat := 0
  data2 : Nat := 0
  data3 : Nat := 0
  aux_u32 : Nat := 0
deriving DecidableEq, Repr

/-! ## Serial line protocol (src/cpp_gateway/src/rosmaster/rosmaster.cpp,
include/rosmaster/protocol.hpp) -/

def HEAD : Nat := 0xFF

def DEVICE_ID : Nat := 0xFC

/-- protocol.hpp: COMPLEMENT = uint8(257 - DEVICE_ID). -/
def COMPLEMENT : Nat := (257 - DEVICE_ID) % 256

def FUNC_MOTOR : Nat := 0x10

/-- Rosmaster::limit_motor_value: 127 passes through as the keep-previous
sentinel, everything else saturates into [-100, 100]. -/
def limit_motor_value (v : Int) : Int :=
  if v = 127 then 127
  else if v > 100 then 100
  else if v < -100 then -100
  else v

/-- The byte emitted for a signed value: `(uint8_t)(int8_t)v`, i.e. the
value mod 256. -/
def int_to_byte (v : Int) : Nat := (v % 256).toNat

/-- Reading a wire byte back as a signed int8 (two's complement). -/
def byte_as_int8 (b : Nat) : Int := if b < 128 then (b : Int) else (b : Int) - 256

/-- One step of the checksum accumulation: uint8 sum = uint8(sum + b). -/
def checksum_step (s b : Nat) : Nat := (s + b) % 256

/-- Rosmaster::send_fixed5: frame [FF, DEVICE_ID, 0x05, func, p0, p1] plus a
trailing checksum byte folded from COMPLEMENT over the preceding bytes. -/
def send_fixed5_frame (func p0 p1 : Nat) : List Nat :=
  let body : List Nat := [HEAD, DEVICE_ID, 0x05, func, p0, p1]
  body ++ [body.foldl checksum_step COMPLEMENT]

/-- Rosmaster::send_var: frame [FF, DEVICE_ID, len, func] ++ payload plus a
trailing checksum byte; len = uint8(total length before checksum - 1). -/
def send_var_frame (func : Nat) (payload : List Nat) : List Nat :=
  let body : List Nat := [HEAD, DEVICE_ID, (4 + payload.length - 1) % 256, func] ++ payload
  body ++ [body.foldl checksum_step COMPLEMENT]

/-- Rosmaster::set_motor payload: the four limited values cast to bytes. -/
def set_motor_payload (s1 s2 s3 s4 : Int) : List Nat :=
  [int_to_byte (limit_motor_value s1), int_to_byte (limit_motor_value s2),
   int_to_byte (limit_motor_value s3), int_to_byte (limit_motor_value s4)]

/-- The full serial frame emitted by Rosmaster::set_motor. -/
def set_motor_frame (s1 s2 s3 s4 : Int) : List Nat :=
  send_var_frame FUNC_MOTOR (set_motor_payload s1 s2 s3 s4)

/-- Recomputing the checksum of a frame from all bytes before the last one,
as the spec describes it: (COMPLEMENT + sum of all prior bytes) mod 256. -/
def recompute_checksum (frame : List Nat) : Nat :=
  (COMPLEMENT + frame.dropLast.sum) % 256

/-! ### Helper lemmas for the serial layer -/

theorem limit_motor_value_eq_clamp (v : Int) :
    limit_motor_value v = if v = 127 then 127 else max (-100) (min 100 v) := by
  unfold limit_motor_value
  split_ifs <;> omega

theorem limit_motor_value_range (v : Int) :
    limit_motor_value v = 127 ∨
      (-100 ≤ limit_motor_value v ∧ limit_motor_value v ≤ 100) := by
  unfold limit_motor_value
  split_ifs <;> omega

theorem byte_as_int8_int_to_byte (v : Int) (h1 : -128 ≤ v) (h2 : v < 128) :
    byte_as_int8 (int_to_byte v) = v := by
  unfold byte_as_int8 int_to_byte
  split_ifs with hcase <;> omega

theorem foldl_checksum_step (l : List Nat) (s : Nat) :
    l.foldl checksum_step (s % 256) = (s + l.sum) % 256 := by
  induction l generalizing s with
  | nil => simp
  | cons b t ih =>
    simp only [List.foldl_cons, List.sum_cons, checksum_step]
    rw [Nat.mod_add_mod, ih (s + b)]
    ring_nf

theorem COMPLEMENT_eq : COMPLEMENT = 5 := by decide

/-! ## Claim theorems: serial layer -/

/-- C2. Motor clamping: the byte the serial layer emits for input v encodes
127 when v = 127 and max(-100, min(100, v)) otherwise, so every motor value
applied at the serial layer is the 127 sentinel or lies in [-100, 100]. -/
theorem motor_values_clamped_at_serial_layer (s1 s2 s3 s4 : Int) :
    set_motor_payload s1 s2 s3 s4 =
      [s1, s2, s3, s4].map
        (fun v => int_to_byte (if v = 127 then 127 else max (-100) (min 100 v))) ∧
    set_motor_frame s1 s2 s3 s4 =
      send_var_frame FUNC_MOTOR (set_motor_payload s1 s2 s3 s4) ∧
    ∀ v ∈ [s1, s2, s3, s4],
      byte_as_int8 (int_to_byte (limit_motor_value v)) = limit_motor_value v ∧
      (limit_motor_value v = 127 ∨
        (-100 ≤ limit_motor_value v ∧ limit_motor_value v ≤ 100)) := by
  refine ⟨?_, rfl, ?_⟩
  · simp only [set_motor_payload, List.map_cons, List.map_nil,
      limit_motor_value_eq_clamp]
  · intro v _
    refine ⟨?_, limit_motor_value_range v⟩
    have h := limit_motor_value_range v
    rcases h with h | h
    · rw [h]; decide
    · exact byte_as_int8_int_to_byte _ (by omega) (by omega)

/-- C6. Serial checksum: for both frame shapes the final byte equals
(COMPLEMENT + sum of all preceding bytes) mod 256 with
COMPLEMENT = (257 - 0xFC) mod 256 = 5, so recomputing the checksum of an
emitted frame reproduces its checksum byte. -/
theorem serial_checksum_correct (func p0 p1 : Nat) (payload : List Nat) :
    COMPLEMENT = (257 - 0xFC) % 256 ∧ COMPLEMENT = 5 ∧
    (send_fixed5_frame func p0 p1).getLastD 0 =
      recompute_checksum (send_fixed5_frame func p0 p1) ∧
    (send_var_frame func payload).getLastD 0 =
      recompute_checksum (send_var_frame func payload) := by
  refine ⟨rfl, COMPLEMENT_eq, ?_, ?_⟩
  · unfold send_fixed5_frame recompute_checksum
    simp only [List.getLastD_concat, List.dropLast_concat]
    rw [show COMPLEMENT = COMPLEMENT % 256 by decide, foldl_checksum_step]
    rw [COMPLEMENT_eq]
  · unfold send_var_frame recompute_checksum
    simp only [List.getLastD_concat, List.dropLast_concat]
    rw [show COMPLEMENT = COMPLEMENT % 256 by decide, foldl_checksum_step]
    rw [COMPLEMENT_eq]

/-! ## TCP wire codec (src/cpp_gateway/src/connection/wire_codec.cpp,
include/connection/wire_codec.hpp)

All multi-byte fields are little-endian.  float fields travel as their raw
IEEE-754 bit pattern (std::bit_cast to uint32), so they are represented here
by that 32-bit pattern; the bit_cast round trip is the identity on patterns.
-/

def kMotorCmdPayloadSize : Nat := 12
def kSetpointPayloadSize : Nat := 21
def kConfigPayloadSize : Nat := 12
def kStatsPayloadSize : Nat := 48

/-- write_u16_le. -/
def u16le (v : Nat) : List Nat := [v % 256, v / 256 % 256]

/-- write_u32_le. -/
def u32le (v : Nat) : List Nat :=
  [v % 256, v / 256 % 256, v / 65536 % 256, v / 16777216 % 256]

/-- write_i16_le: the value is first converted to its uint16 pattern. -/
def i16le (v : Int) : List Nat := u16le (v % 65536).toNat

/-- read_u16_le. -/
def read_u16 (b0 b1 : Nat) : Nat := b0 + 256 * b1

/-- read_u32_le. -/
def read_u32 (b0 b1 b2 b3 : Nat) : Nat :=
  b0 + 256 * b1 + 65536 * b2 + 16777216 * b3

/-- read_i16_le: uint16 pattern reinterpreted as int16. -/
def read_i16 (b0 b1 : Nat) : Int :=
  if read_u16 b0 b1 < 32768 then (read_u16 b0 b1 : Int)
  else (read_u16 b0 b1 : Int) - 65536

/-- connection::wire::MotorCmdPayload. -/
structure MotorCmdPayload where
  seq : Nat := 0
  motors : MotorCommands := {}
deriving DecidableEq, Repr

/-- connection::wire::SetpointPayload; sp0..sp3 are the f32 bit patterns. -/
structure SetpointPayload where
  seq : Nat := 0
  sp0 : Nat := 0
  sp1 : Nat := 0
  sp2 : Nat := 0
  sp3 : Nat := 0
  flags : Nat := 0
deriving DecidableEq, Repr

/-- connection::wire::ConfigPayload. -/
structure ConfigPayload where
  seq : Nat := 0
  key : Nat := 0
  u8 : Nat := 0
  u16 : Nat := 0
  u32 : Nat := 0
deriving DecidableEq, Repr

/-- connection::wire::StatsPayload; hz fields are f32 bit patterns. -/
structure StatsPayload where
  seq : Nat := 0
  uptime_ms : Nat := 0
  usb_hz : Nat := 0
  tcp_hz : Nat := 0
  ctrl_hz : Nat := 0
  drops_state : Nat := 0
  drops_cmd : Nat := 0
  drops_event : Nat := 0
  drops_sys_event : Nat := 0
  tcp_frames_bad : Nat := 0
  serial_errors : Nat := 0
  reserved0 : Nat := 0
deriving DecidableEq, Repr

/-- Field ranges guaranteed by the C++ field types (u32/i16/u8/u16). -/
def MotorCmdPayload.wf (p : MotorCmdPayload) : Prop :=
  p.seq < 4294967296 ∧
  -32768 ≤ p.motors.m1 ∧ p.motors.m1 < 32768 ∧
  -32768 ≤ p.motors.m2 ∧ p.motors.m2 < 32768 ∧
  -32768 ≤ p.motors.m3 ∧ p.motors.m3 < 32768 ∧
  -32768 ≤ p.motors.m4 ∧ p.motors.m4 < 32768

instance (p : MotorCmdPayload) : Decidable p.wf := by
  unfold MotorCmdPayload.wf; infer_instance

def SetpointPayload.wf (p : SetpointPayload) : Prop :=
  p.seq < 4294967296 ∧ p.sp0 < 4294967296 ∧ p.sp1 < 4294967296 ∧
  p.sp2 < 4294967296 ∧ p.sp3 < 4294967296 ∧ p.flags < 256

instance (p : SetpointPayload) : Decidable p.wf := by
  unfold SetpointPayload.wf; infer_instance

def ConfigPayload.wf (p : ConfigPayload) : Prop :=
  p.seq < 4294967296 ∧ p.key < 256 ∧ p.u8 < 256 ∧ p.u16 < 65536 ∧
  p.u32 < 4294967296

instance (p : ConfigPayload) : Decidable p.wf := by
  unfold ConfigPayload.wf; infer_instance

def StatsPayload.wf (p : StatsPayload) : Prop :=
  p.seq < 4294967296 ∧ p.uptime_ms < 4294967296 ∧ p.usb_hz < 4294967296 ∧
  p.tcp_hz < 4294967296 ∧ p.ctrl_hz < 4294967296 ∧
  p.drops_state < 4294967296 ∧ p.drops_cmd < 4294967296 ∧
  p.drops_event < 4294967296 ∧ p.drops_sys_event < 4294967296 ∧
  p.tcp_frames_bad < 4294967296 ∧ p.serial_errors < 4294967296 ∧
  p.reserved0 < 4294967296

instance (p : StatsPayload) : Decidable p.wf := by
  unfold StatsPayload.wf; infer_instance

/-- encode_cmd_payload (12 bytes). -/
def encode_cmd_payload (p : MotorCmdPayload) : List Nat :=
  u32le p.seq ++ i16le p.motors.m1 ++ i16le p.motors.m2 ++
  i16le p.motors.m3 ++ i16le p.motors.m4

/-- decode_cmd_payload: fails unless the payload is exactly 12 bytes. -/
def decode_cmd_payload (l : List Nat) : Option MotorCmdPayload :=
  match l with
  | [a0, a1, a2, a3, b0, b1, c0, c1, d0, d1, e0, e1] =>
    some { seq := read_u32 a0 a1 a2 a3,
           motors := { m1 := read_i16 b0 b1, m2 := read_i16 c0 c1,
                       m3 := read_i16 d0 d1, m4 := read_i16 e0 e1 } }
  | _ => none

/-- encode_setpoint_payload (21 bytes). -/
def encode_setpoint_payload (p : SetpointPayload) : List Nat :=
  u32le p.seq ++ u32le p.sp0 ++ u32le p.sp1 ++ u32le p.sp2 ++ u32le p.sp3 ++
  [p.flags]

/-- decode_setpoint_payload: fails unless the payload is exactly 21 bytes. -/
def decode_setpoint_payload (l : List Nat) : Option SetpointPayload :=
  match l with
  | [a0, a1, a2, a3, b0, b1, b2, b3, c0, c1, c2, c3,
     d0, d1, d2, d3, e0, e1, e2, e3, f0] =>
    some { seq := read_u32 a0 a1 a2 a3, sp0 := read_u32 b0 b1 b2 b3,
           sp1 := read_u32 c0 c1 c2 c3, sp2 := read_u32 d0 d1 d2 d3,
           sp3 := read_u32 e0 e1 e2 e3, flags := f0 }
  | _ => none

/-- encode_config_payload (12 bytes). -/
def encode_config_payload (p : ConfigPayload) : List Nat :=
  u32le p.seq ++ [p.key, p.u8] ++ u16le p.u16 ++ u32le p.u32

/-- decode_config_payload: fails unless the payload is exactly 12 bytes. -/
def decode_config_payload (l : List Nat) : Option ConfigPayload :=
  match l with
  | [a0, a1, a2, a3, k, u, b0, b1, c0, c1, c2, c3] =>
    some { seq := read_u32 a0 a1 a2 a3, key := k, u8 := u,
           u16 := read_u16 b0 b1, u32 := read_u32 c0 c1 c2 c3 }
  | _ => none

/-- encode_stats_payload (48 bytes; the zero-padding loop is vacuous since
12 four-byte fields already fill the buffer). -/
def encode_stats_payload (p : StatsPayload) : List Nat :=
  u32le p.seq ++ u32le p.uptime_ms ++ u32le p.usb_hz ++ u32le p.tcp_hz ++
  u32le p.ctrl_hz ++ u32le p.drops_state ++ u32le p.drops_cmd ++
  u32le p.drops_event ++ u32le p.drops_sys_event ++ u32le p.tcp_frames_bad ++
  u32le p.serial_errors ++ u32le p.reserved0

/-- decode_stats_payload: fails unless the payload is exactly 48 bytes. -/
def decode_stats_payload (l : List Nat) : Option StatsPayload :=
  if l.length = 48 then
    some { seq := read_u32 (l.getD 0 0) (l.getD 1 0) (l.getD 2 0) (l.getD 3 0),
           uptime_ms := read_u32 (l.getD 4 0) (l.getD 5 0) (l.getD 6 0) (l.getD 7 0),
           usb_hz := read_u32 (l.getD 8 0) (l.getD 9 0) (l.getD 10 0) (l.getD 11 0),
           tcp_hz := read_u32 (l.getD 12 0) (l.getD 13 0) (l.getD 14 0) (l.getD 15 0),
           ctrl_hz := read_u32 (l.getD 16 0) (l.getD 17 0) (l.getD 18 0) (l.getD 19 0),
           drops_state := read_u32 (l.getD 20 0) (l.getD 21 0) (l.getD 22 0) (l.getD 23 0),
           drops_cmd := read_u32 (l.getD 24 0) (l.getD 25 0) (l.getD 26 0) (l.getD 27 0),
           drops_event := read_u32 (l.getD 28 0) (l.getD 29 0) (l.getD 30 0) (l.getD 31 0),
           drops_sys_event := read_u32 (l.getD 32 0) (l.getD 33 0) (l.getD 34 0) (l.getD 35 0),
           tcp_frames_bad := read_u32 (l.getD 36 0) (l.getD 37 0) (l.getD 38 0) (l.getD 39 0),
           serial_errors := read_u32 (l.getD 40 0) (l.getD 41 0) (l.getD 42 0) (l.getD 43 0),
           reserved0 := read_u32 (l.getD 44 0) (l.getD 45 0) (l.getD 46 0) (l.getD 47 0) }
  else none

/-! ### Codec helper lemmas -/

theorem read_u32_u32le (v : Nat) (h : v < 4294967296) :
    read_u32 (v % 256) (v / 256 % 256) (v / 65536 % 256) (v / 16777216 % 256) = v := by
  unfold read_u32
  omega

theorem read_u16_u16le (v : Nat) (h : v < 65536) :
    read_u16 (v % 256) (v / 256 % 256) = v := by
  unfold read_u16
  omega

theorem read_i16_i16le (v : Int) (h1 : -32768 ≤ v) (h2 : v < 32768) :
    read_i16 ((v % 65536).toNat % 256) ((v % 65536).toNat / 256 % 256) = v := by
  unfold read_i16 read_u16
  split_ifs with hcase <;> omega

theorem cmd_round_trip (p : MotorCmdPayload) (h : p.wf) :
    decode_cmd_payload (encode_cmd_payload p) = some p := by
  obtain ⟨h1, h2, h3, h4, h5, h6, h7, h8, h9⟩ := h
  obtain ⟨seq, ⟨m1, m2, m3, m4⟩⟩ := p
  simp only [encode_cmd_payload, u32le, i16le, u16le, List.cons_append,
    List.nil_append]
  simp only [decode_cmd_payload, Option.some.injEq, MotorCmdPayload.mk.injEq,
    MotorCommands.mk.injEq]
  refine ⟨read_u32_u32le _ h1, ?_, ?_, ?_, ?_⟩ <;>
    exact read_i16_i16le _ (by assumption) (by assumption)

theorem setpoint_round_trip (p : SetpointPayload) (h : p.wf) :
    decode_setpoint_payload (encode_setpoint_payload p) = some p := by
  obtain ⟨h1, h2, h3, h4, h5, h6⟩ := h
  obtain ⟨seq, s0, s1, s2, s3, fl⟩ := p
  simp only [encode_setpoint_payload, u32le, List.cons_append, List.nil_append]
  simp only [decode_setpoint_payload, Option.some.injEq, SetpointPayload.mk.injEq]
  exact ⟨read_u32_u32le _ h1, read_u32_u32le _ h2, read_u32_u32le _ h3,
    read_u32_u32le _ h4, read_u32_u32le _ h5, trivial⟩

theorem config_round_trip (p : ConfigPayload) (h : p.wf) :
    decode_config_payload (encode_config_payload p) = some p := by
  obtain ⟨h1, h2, h3, h4, h5⟩ := h
  obtain ⟨seq, k, u8, u16, u32⟩ := p
  simp only [encode_config_payload, u32le, u16le, List.cons_append,
    List.nil_append]
  simp only [decode_config_payload, Option.some.injEq, ConfigPayload.mk.injEq]
  exact ⟨read_u32_u32le _ h1, trivial, trivial, read_u16_u16le _ h4,
    read_u32_u32le _ h5⟩

theorem stats_round_trip (p : StatsPayload) (h : p.wf) :
    decode_stats_payload (encode_stats_payload p) = some p := by
  obtain ⟨h1, h2, h3, h4, h5, h6, h7, h8, h9, h10, h11, h12⟩ := h
  obtain ⟨f1, f2, f3, f4, f5, f6, f7, f8, f9, f10, f11, f12⟩ := p
  simp only [encode_stats_payload, u32le, List.cons_append, List.nil_append]
  simp only [decode_stats_payload, List.length_cons, List.length_nil]
  norm_num [List.getD_cons_succ, List.getD_cons_zero]
  exact ⟨read_u32_u32le _ h1, read_u32_u32le _ h2, read_u32_u32le _ h3,
    read_u32_u32le _ h4, read_u32_u32le _ h5, read_u32_u32le _ h6,
    read_u32_u32le _ h7, read_u32_u32le _ h8, read_u32_u32le _ h9,
    read_u32_u32le _ h10, read_u32_u32le _ h11, read_u32_u32le _ h12⟩

/-! ## Claim theorem: codec round trips -/

/-- C5. Codec round trips: each of the four payload codecs encodes into a
buffer of the exact documented payload size and decoding that buffer
succeeds and reproduces the payload field-for-field. -/
theorem codec_round_trips (c : MotorCmdPayload) (s : SetpointPayload)
    (k : ConfigPayload) (t : StatsPayload)
    (hc : c.wf) (hs : s.wf) (hk : k.wf) (ht : t.wf) :
    (encode_cmd_payload c).length = kMotorCmdPayloadSize ∧
    decode_cmd_payload (encode_cmd_payload c) = some c ∧
    (encode_setpoint_payload s).length = kSetpointPayloadSize ∧
    decode_setpoint_payload (encode_setpoint_payload s) = some s ∧
    (encode_config_payload k).length = kConfigPayloadSize ∧
    decode_config_payload (encode_config_payload k) = some k ∧
    (encode_stats_payload t).length = kStatsPayloadSize ∧
    decode_stats_payload (encode_stats_payload t) = some t := by
  refine ⟨?_, cmd_round_trip c hc, ?_, setpoint_round_trip s hs, ?_,
    config_round_trip k hk, ?_, stats_round_trip t ht⟩ <;>
    simp [encode_cmd_payload, encode_setpoint_payload, encode_config_payload,
      encode_stats_payload, u32le, u16le, i16le, kMotorCmdPayloadSize,
      kSetpointPayloadSize, kConfigPayloadSize, kStatsPayloadSize]

/-- Concrete command payload of scenario S1 in the spec. -/
def cmdPayloadS1 : MotorCmdPayload :=
  { seq := 0x04030201, motors := { m1 := -10, m2 := 20, m3 := 30, m4 := 40 } }

def setpointPayloadW : SetpointPayload :=
  { seq := 7, sp0 := 0x3F800000, sp1 := 0, sp2 := 0xBF800000, sp3 := 5, flags := 3 }

def configPayloadW : ConfigPayload :=
  { seq := 9, key := 4, u8 := 1, u16 := 50000, u32 := 123456789 }

def statsPayloadW : StatsPayload :=
  { seq := 1, uptime_ms := 123, usb_hz := 0x43480000, tcp_hz := 2,
    ctrl_hz := 3, drops_state := 4, drops_cmd := 5, drops_event := 6,
    drops_sys_event := 7, tcp_frames_bad := 8, serial_errors := 9,
    reserved0 := 0 }

/-- Witness for C5 at concrete payloads (S1 command among them). -/
theorem codec_round_trips_witness :
    cmdPayloadS1.wf ∧ setpointPayloadW.wf ∧ configPayloadW.wf ∧
    statsPayloadW.wf ∧
    ((encode_cmd_payload cmdPayloadS1).length = kMotorCmdPayloadSize ∧
     decode_cmd_payload (encode_cmd_payload cmdPayloadS1) = some cmdPayloadS1 ∧
     (encode_setpoint_payload setpointPayloadW).length = kSetpointPayloadSize ∧
     decode_setpoint_payload (encode_setpoint_payload setpointPayloadW) =
       some setpointPayloadW ∧
     (encode_config_payload configPayloadW).length = kConfigPayloadSize ∧
     decode_config_payload (encode_config_payload configPayloadW) =
       some configPayloadW ∧
     (encode_stats_payload statsPayloadW).length = kStatsPayloadSize ∧
     decode_stats_payload (encode_stats_payload statsPayloadW) =
       some statsPayloadW) :=
  ⟨by decide, by decide, by decide, by decide,
   codec_round_trips cmdPayloadS1 setpointPayloadW configPayloadW statsPayloadW
     (by decide) (by decide) (by decide) (by decide)⟩

/-! ## TCP framed stream decoder (include/connection/framed.hpp) -/

def MSG_VER : Nat := 1
def MSG_STATE : Nat := 1
def MSG_CMD : Nat := 2
def MSG_SETPOINT : Nat := 3
def MSG_CONFIG : Nat := 4
def MSG_STATS_REQ : Nat := 5
def MSG_STATS_RESP : Nat := 6

def kMaxPayload : Nat := 255
def kMaxBufferBytes : Nat := 65536

def is_known_type (t : Nat) : Bool :=
  t == MSG_STATE || t == MSG_CMD || t == MSG_SETPOINT || t == MSG_CONFIG ||
  t == MSG_STATS_REQ || t == MSG_STATS_RESP

/-- Types for which FrameRx::pop treats a zero-length payload as a framing
error (MSG_CMD, MSG_SETPOINT, MSG_CONFIG, MSG_STATS_RESP). -/
def zero_len_invalid (t : Nat) : Bool :=
  t == MSG_CMD || t == MSG_SETPOINT || t == MSG_CONFIG || t == MSG_STATS_RESP

/-- A decoded frame: message type plus payload bytes. -/
structure Frame where
  type : Nat
  payload : List Nat
deriving DecidableEq, Repr

/-- FrameRx::pop called repeatedly until it returns false, on a buffer whose
bytes were all pushed beforehand.  Mirrors the source checks in order:
header available, version/known-type sanity (resync by dropping one byte),
payload-length cap, zero-length semantic sanity, completeness, then frame
extraction consuming header+payload. -/
def popAll (buf : List Nat) : List Frame :=
  match buf with
  | b0 :: b1 :: b2 :: rest =>
    if b1 ≠ MSG_VER ∨ is_known_type b0 = false then popAll (b1 :: b2 :: rest)
    else if kMaxPayload < b2 then popAll (b1 :: b2 :: rest)
    else if b2 = 0 ∧ zero_len_invalid b0 = true then popAll (b1 :: b2 :: rest)
    else if rest.length < b2 then []
    else { type := b0, payload := rest.take b2 } :: popAll (rest.drop b2)
  | _ => []
  termination_by buf.length
  decreasing_by all_goals (simp; try omega)

theorem popAll_nil_eq : popAll [] = [] := by unfold popAll; rfl

/-- FrameRx::push_bytes on a fresh (empty) decoder: under the 64 KiB cap the
bytes are taken as-is, otherwise only the tail that fits is kept. -/
def push_bytes_fresh (data : List Nat) : List Nat :=
  if data.length ≤ kMaxBufferBytes then data
  else data.drop (data.length - kMaxBufferBytes)

/-- A complete encoded frame: 3-byte header (type, ver=1, payload length)
followed by the full payload. -/
def encode_frame (t : Nat) (payload : List Nat) : List Nat :=
  t :: MSG_VER :: payload.length :: payload

/-- A frame the decoder can accept: known type, payload within the length
byte's cap, and not a zero-length payload of a type that requires one. -/
def FrameWf (t : Nat) (payload : List Nat) : Prop :=
  is_known_type t = true ∧ payload.length ≤ kMaxPayload ∧
  ¬(payload.length = 0 ∧ zero_len_invalid t = true)

instance (t : Nat) (payload : List Nat) : Decidable (FrameWf t payload) := by
  unfold FrameWf; infer_instance

theorem popAll_frame_cons (t : Nat) (p B : List Nat) (hwf : FrameWf t p) :
    popAll (encode_frame t p ++ B) = { type := t, payload := p } :: popAll B := by
  obtain ⟨hk, hlen, hzero⟩ := hwf
  have he : encode_frame t p ++ B = t :: MSG_VER :: p.length :: (p ++ B) := by
    simp [encode_frame]
  rw [he]
  unfold popAll
  rw [if_neg (by simp [hk]), if_neg (by omega),
      if_neg hzero, if_neg (by simp [List.length_append])]
  rw [List.take_left, List.drop_left]
  congr 1
  conv_lhs => unfold popAll

/-! ## Claim theorems: framing resync -/

/-- C4 counterexample: the claim fails for arbitrary prefixes.  The prefix
bytes [2, 1, 15] parse as a valid MSG_CMD header announcing a 15-byte
payload, which swallows the following complete 15-byte MSG_CMD frame P
whole: the decoder emits one frame whose payload is P itself, and never
emits P's own (type, payload). -/
theorem frame_resync_arbitrary_prefix_cex :
    FrameWf MSG_CMD [1, 2, 3, 4, 5, 6, 7, 8, 9, 10, 11, 12] ∧
    popAll (push_bytes_fresh
        ([2, 1, 15] ++ encode_frame MSG_CMD [1, 2, 3, 4, 5, 6, 7, 8, 9, 10, 11, 12] ++ [])) =
      [{ type := MSG_CMD,
         payload := [2, 1, 12, 1, 2, 3, 4, 5, 6, 7, 8, 9, 10, 11, 12] }] ∧
    { type := MSG_CMD, payload := [1, 2, 3, 4, 5, 6, 7, 8, 9, 10, 11, 12] } ∉
      popAll (push_bytes_fresh
        ([2, 1, 15] ++ encode_frame MSG_CMD [1, 2, 3, 4, 5, 6, 7, 8, 9, 10, 11, 12] ++ [])) := by
  refine ⟨by decide, ?_, ?_⟩ <;>
    norm_num [popAll, push_bytes_fresh, encode_frame, MSG_VER, MSG_CMD,
      is_known_type, zero_len_invalid, kMaxPayload, kMaxBufferBytes,
      popAll_nil_eq]

/-- C4 (amended).  Resync safety holds for arbitrary suffixes: feeding a
complete well-formed encoded frame P followed by any bytes B (within the
64 KiB buffer cap) into a fresh FrameRx yields P's type and payload as the
first decoded frame.  Arbitrary prefix bytes are not safe in general, since
a prefix may itself parse as a valid header that consumes P as its payload
(see the counterexample). -/
theorem frame_decode_resync_suffix (t : Nat) (p B : List Nat)
    (hwf : FrameWf t p)
    (hcap : (encode_frame t p ++ B).length ≤ kMaxBufferBytes) :
    popAll (push_bytes_fresh (encode_frame t p ++ B)) =
      { type := t, payload := p } :: popAll B ∧
    { type := t, payload := p } ∈
      popAll (push_bytes_fresh (encode_frame t p ++ B)) := by
  have hid : push_bytes_fresh (encode_frame t p ++ B) = encode_frame t p ++ B := by
    unfold push_bytes_fresh
    rw [if_pos hcap]
  rw [hid, popAll_frame_cons t p B hwf]
  exact ⟨rfl, List.mem_cons_self _ _⟩

/-- Witness for C4 at a concrete frame and suffix. -/
theorem frame_decode_resync_suffix_witness :
    FrameWf MSG_CMD [9, 9] ∧
    (encode_frame MSG_CMD [9, 9] ++ [0, 7, 7]).length ≤ kMaxBufferBytes ∧
    popAll (push_bytes_fresh (encode_frame MSG_CMD [9, 9] ++ [0, 7, 7])) =
      { type := MSG_CMD, payload := [9, 9] } :: popAll [0, 7, 7] :=
  ⟨by decide, by decide,
   (frame_decode_resync_suffix MSG_CMD [9, 9] [0, 7, 7]
     (by decide) (by decide)).1⟩

/-! ## Runtime configuration (include/gateway/runtime_config.hpp)

C++ doubles are modelled as ℚ; the 0.2 s default timeout is taken as the
exact rational 1/5 (no arithmetic in the claims depends on the double
rounding of the literal). -/

structure RuntimeConfig where
  usb_hz : ℚ := 200
  tcp_hz : ℚ := 200
  ctrl_hz : ℚ := 200
  bind_ip : String := "0.0.0.0"
  state_port : Nat := 30001
  cmd_port : Nat := 30002
  serial_dev : String := "/dev/ttyUSB0"
  serial_baud : Int := 115200
  cmd_timeout_s : ℚ := 1/5
  usb_timeout_mode : UsbTimeoutMode := .ENFORCE
  control_mode : ControlMode := .PASS_THROUGH_CMD
  ctrl_thread_priority : Int := 0
  binary_log : Bool := true
  log_path : String := "./logs/gateway.bin"
  log_rotate_mb : Nat := 256
  log_rotate_keep : Nat := 10
  flag_event_mask : Nat := 0x07
  flag_start_bit : Int := -1
  flag_stop_bit : Int := -1
  flag_reset_bit : Int := -1
deriving DecidableEq, Repr

/-- workers::SystemState (app/workers/shared_state.hpp). -/
structure SystemState where
  running : Bool := false
  control_mode : ControlMode := .PASS_THROUGH_CMD
  continuous_flags : Nat := 0
deriving DecidableEq, Repr

/-! ## USB worker per-cycle motor application
(app/workers/usb_worker.cpp, loop body lines computing the action that is
passed to Rosmaster::set_motor) -/

structure UsbCycleOut where
  applied : Actions
  timed_out : Bool
deriving DecidableEq, Repr

/-- One USB-worker cycle up to the set_motor call: inputs are the config
snapshot, the latest_action_request mailbox value, the system_state mailbox
value, the last_cmd_rx_mono_s shared value and the cycle's monotonic time.
`applied` is the action whose motors are handed to set_motor. -/
def usb_cycle (cfg : Option RuntimeConfig) (actReq : Actions)
    (sys : SystemState) (last_cmd_rx now_mono : ℚ) : UsbCycleOut :=
  let act0 := if sys.running then actReq else { actReq with motors := {}, beep_ms := 0 }
  let timeout_s : ℚ := match cfg with | some c => c.cmd_timeout_s | none => 1/5
  let timeout_mode := match cfg with
    | some c => c.usb_timeout_mode
    | none => UsbTimeoutMode.ENFORCE
  let cmd_fresh : Bool :=
    decide (timeout_mode = UsbTimeoutMode.DISABLE) ||
    (decide (0 < last_cmd_rx) && decide (now_mono - last_cmd_rx ≤ timeout_s))
  let timed_out := !cmd_fresh
  let act1 := if timed_out then { act0 with motors := {}, beep_ms := 0 } else act0
  { applied := act1, timed_out := timed_out }

/-! ## Controller worker per-cycle output
(app/workers/controller_worker.cpp) -/

structure CtrlCycleOut where
  action_request : Actions
  sys : SystemState
  cmd_timeout_active : Bool
  mailboxes_reset : Bool
deriving DecidableEq, Repr

/-- controller_worker.cpp bit_matches: bit >= 0 && bit < 8 && uint8(bit) == idx. -/
def ctrl_bit_matches (bit : Int) (idx : Nat) : Bool :=
  decide (0 ≤ bit) && decide (bit < 8) && decide (bit = (idx : Int))

/-- Handling of one drained sys event (FLAG_RISE start/stop/reset mapping);
the Bool in the accumulator records that the reset branch cleared the
latest_remote_cmd / latest_setpoint_cmd mailboxes. -/
def ctrl_apply_event (cfg : Option RuntimeConfig) (acc : SystemState × Bool)
    (ev : EventCmd) : SystemState × Bool :=
  if ev.type ≠ EventType.FLAG_RISE then acc
  else match cfg with
    | none => acc
    | some c =>
      let s0 := acc.1
      let s1 := if ctrl_bit_matches c.flag_start_bit ev.data0 then
          { s0 with running := true } else s0
      let s2 := if ctrl_bit_matches c.flag_stop_bit ev.data0 then
          { s1 with running := false } else s1
      if ctrl_bit_matches c.flag_reset_bit ev.data0 then
        ({ s2 with running := false }, true)
      else (s2, acc.2)

/-- One controller-worker cycle: drains up to 32 sys events, evaluates the
command timeout, and computes the Actions value published to
latest_action_request.  The latest_state / latest_setpoint_cmd snapshots do
not influence the published action in any mode (the autonomous branches are
placeholders that output zero motors). -/
def controller_cycle (cfg : Option RuntimeConfig) (remote_cmd : Actions)
    (sysIn : SystemState) (events : List EventCmd) (last_rx now_mono : ℚ) :
    CtrlCycleOut :=
  let sys0 := match cfg with
    | some c => { sysIn with control_mode := c.control_mode }
    | none => sysIn
  let drained := (events.take 32).foldl (ctrl_apply_event cfg) (sys0, false)
  let sys1 := drained.1
  let cmd_timeout_active : Bool := match cfg with
    | some c =>
      decide (c.usb_timeout_mode = UsbTimeoutMode.ENFORCE) &&
      (decide (0 < last_rx) && decide (c.cmd_timeout_s < now_mono - last_rx))
    | none => false
  let out : Actions :=
    if !sys1.running || cmd_timeout_active then
      { motors := {}, beep_ms := 0, flags := sys1.continuous_flags }
    else match sys1.control_mode with
      | ControlMode.PASS_THROUGH_CMD =>
        { remote_cmd with beep_ms := 0, flags := sys1.continuous_flags }
      | ControlMode.AUTONOMOUS =>
        { motors := {}, beep_ms := 0, flags := sys1.continuous_flags }
      | ControlMode.AUTONOMOUS_WITH_REMOTE_SETPOINT =>
        { motors := {}, beep_ms := 0, flags := sys1.continuous_flags }
  { action_request := out, sys := sys1, cmd_timeout_active := cmd_timeout_active,
    mailboxes_reset := drained.2 }

/-! ## Claim theorems: watchdog safety -/

/-- C1. Watchdog safety: in a USB-worker cycle with usb_timeout_mode =
ENFORCE, a command already seen (last_cmd_rx > 0) and
now_mono - last_cmd_rx > cmd_timeout_s, the action applied via set_motor
has all motors zero (and the zero bytes go on the wire); under the same
condition the controller worker publishes an all-zero motor command to
latest_motor_cmd_request. -/
theorem watchdog_forces_zero_motors
    (c : RuntimeConfig) (actReq remote_cmd : Actions) (sysU sysC : SystemState)
    (events : List EventCmd) (last_cmd_rx now_mono : ℚ)
    (hmode : c.usb_timeout_mode = UsbTimeoutMode.ENFORCE)
    (hseen : 0 < last_cmd_rx)
    (hstale : c.cmd_timeout_s < now_mono - last_cmd_rx) :
    (usb_cycle (some c) actReq sysU last_cmd_rx now_mono).applied.motors = {} ∧
    (usb_cycle (some c) actReq sysU last_cmd_rx now_mono).timed_out = true ∧
    set_motor_payload 0 0 0 0 = [0, 0, 0, 0] ∧
    (controller_cycle (some c) remote_cmd sysC events last_cmd_rx
        now_mono).action_request.motors = {} := by
  have h1 : decide (c.usb_timeout_mode = UsbTimeoutMode.DISABLE) = false := by
    simp [hmode]
  have hc : c.cmd_timeout_s + last_cmd_rx < now_mono := by linarith
  refine ⟨?_, ?_, by decide, ?_⟩
  · simp [usb_cycle, h1, hc]
  · simp [usb_cycle, h1, hc]
  · simp [controller_cycle, hmode, hstale, hc, hseen]

/-- Witness for C1 at a concrete configuration and stale clock. -/
theorem watchdog_forces_zero_motors_witness :
    ({} : RuntimeConfig).usb_timeout_mode = UsbTimeoutMode.ENFORCE ∧
    (0 : ℚ) < 1 ∧ ({} : RuntimeConfig).cmd_timeout_s < 2 - 1 ∧
    ((usb_cycle (some {}) { motors := { m1 := 5, m2 := -3, m3 := 7, m4 := 9 } }
        { running := true } 1 2).applied.motors = {} ∧
     (usb_cycle (some {}) { motors := { m1 := 5, m2 := -3, m3 := 7, m4 := 9 } }
        { running := true } 1 2).timed_out = true ∧
     set_motor_payload 0 0 0 0 = [0, 0, 0, 0] ∧
     (controller_cycle (some {}) { motors := { m1 := 5, m2 := -3, m3 := 7, m4 := 9 } }
        { running := true } [] 1 2).action_request.motors = {}) :=
  ⟨by decide, by norm_num, by norm_num,
   watchdog_forces_zero_motors {} _ _ { running := true } { running := true } []
     1 2 (by decide) (by norm_num) (by norm_num)⟩

/-- C10. Startup safety: with usb_timeout_mode = ENFORCE and no TCP command
ever received (last_cmd_rx_mono_s = 0), every USB-worker cycle treats the
command as stale and applies all-zero motors, whatever
latest_motor_cmd_request and system_state contain. -/
theorem usb_zero_motors_before_first_command
    (c : RuntimeConfig) (actReq : Actions) (sys : SystemState) (now_mono : ℚ)
    (hmode : c.usb_timeout_mode = UsbTimeoutMode.ENFORCE) :
    (usb_cycle (some c) actReq sys 0 now_mono).applied.motors = {} ∧
    (usb_cycle (some c) actReq sys 0 now_mono).timed_out = true := by
  have h1 : decide (c.usb_timeout_mode = UsbTimeoutMode.DISABLE) = false := by
    simp [hmode]
  constructor <;> simp [usb_cycle, h1]

/-- Witness for C10: a nonzero pending request is still zeroed. -/
theorem usb_zero_motors_before_first_command_witness :
    ({} : RuntimeConfig).usb_timeout_mode = UsbTimeoutMode.ENFORCE ∧
    (usb_cycle (some {}) { motors := { m1 := 90, m2 := 90, m3 := 90, m4 := 90 } }
        { running := true } 0 5).applied.motors = {} :=
  ⟨by decide,
   (usb_zero_motors_before_first_command {} _ { running := true } 5 (by decide)).1⟩

/-! ## TCP worker: MSG_CMD dispatch (app/workers/tcp_worker.cpp) -/

/-- Modelled from the spec: connection::wire::CmdPayload, the decoded command
payload variant TcpWorker consumes (tcp_worker.cpp reads cp.seq and
cp.actions; the provided wire_codec sources carry the MotorCmdPayload
variant instead of this struct).  Per spec section 3 an Actions value is
motors plus one-shot beep_ms and flag bits, and the command carries a
sequence number. -/
structure CmdPayload where
  seq : Nat := 0
  actions : Actions := {}
deriving DecidableEq, Repr

/-- tcp_worker.cpp rising_edges: uint8((~prev) & now). -/
def rising_edges (prev now : Nat) : Nat := (255 ^^^ prev % 256) &&& now % 256

def beep_event_cmd (seq beep : Nat) : EventCmd :=
  { type := .BEEP, seq := seq, data0 := beep }

def flag_rise_event_cmd (seq b flags_snapshot : Nat) : EventCmd :=
  { type := .FLAG_RISE, seq := seq, data0 := b, data1 := flags_snapshot }

/-- Result of dispatching one decoded MSG_CMD frame. -/
structure CmdDispatchOut where
  last_cmd_rx : ℚ
  beep_events : List EventCmd
  sys_events : List EventCmd
  stored_remote_cmd : Actions
  last_cmd_seq : Nat
  last_cmd_flags : Nat
deriving DecidableEq, Repr

/-- TcpWorker MSG_CMD dispatch: always refresh last_cmd_rx_mono_s and store
the continuous command; emit the one-shot BEEP and FLAG_RISE events (and
update the seq/flags trackers, clearing beep from the stored command) only
when the frame's seq differs from the previously processed one.  The
trackers initialize to last_cmd_seq = 0, last_cmd_flags = 0 at worker
start. -/
def tcp_handle_cmd (cfg : Option RuntimeConfig) (last_seq last_flags : Nat)
    (cp : CmdPayload) (now_mono : ℚ) : CmdDispatchOut :=
  if cp.seq ≠ last_seq then
    let cleared :=
      if cp.actions.beep_ms ≠ 0 then { cp.actions with beep_ms := 0 }
      else cp.actions
    let beeps :=
      if cp.actions.beep_ms ≠ 0 then [beep_event_cmd cp.seq cp.actions.beep_ms]
      else []
    let rises := rising_edges last_flags cp.actions.flags
    let sysEvents :=
      if rises ≠ 0 then
        let mask := match cfg with | some c => c.flag_event_mask | none => 0x07
        let eff := rises &&& mask
        (List.range 8).filterMap (fun b =>
          if eff &&& (1 <<< b) ≠ 0 then
            some (flag_rise_event_cmd cp.seq b cp.actions.flags)
          else none)
      else []
    { last_cmd_rx := now_mono, beep_events := beeps, sys_events := sysEvents,
      stored_remote_cmd := cleared, last_cmd_seq := cp.seq,
      last_cmd_flags := cp.actions.flags }
  else
    { last_cmd_rx := now_mono, beep_events := [], sys_events := [],
      stored_remote_cmd := cp.actions, last_cmd_seq := last_seq,
      last_cmd_flags := last_flags }

/-- C9. A first MSG_CMD whose seq equals the initial tracker value 0 updates
last_cmd_rx_mono_s and the stored remote command but emits no BEEP and no
FLAG_RISE events, however its beep_ms and flag bits are set; in general
one-shot events are emitted only for frames whose seq differs from the
previously processed one. -/
theorem first_cmd_seq_zero_emits_no_events
    (cfg : Option RuntimeConfig) (cp : CmdPayload) (now_mono : ℚ)
    (hseq : cp.seq = 0) :
    (tcp_handle_cmd cfg 0 0 cp now_mono).beep_events = [] ∧
    (tcp_handle_cmd cfg 0 0 cp now_mono).sys_events = [] ∧
    (tcp_handle_cmd cfg 0 0 cp now_mono).stored_remote_cmd = cp.actions ∧
    (tcp_handle_cmd cfg 0 0 cp now_mono).last_cmd_rx = now_mono ∧
    (∀ (ls lf : Nat) (cp2 : CmdPayload), cp2.seq = ls →
      (tcp_handle_cmd cfg ls lf cp2 now_mono).beep_events = [] ∧
      (tcp_handle_cmd cfg ls lf cp2 now_mono).sys_events = []) := by
  refine ⟨?_, ?_, ?_, ?_, ?_⟩
  · simp [tcp_handle_cmd, hseq]
  · simp [tcp_handle_cmd, hseq]
  · simp [tcp_handle_cmd, hseq]
  · simp [tcp_handle_cmd, hseq]
  · intro ls lf cp2 hseq2
    constructor <;> simp [tcp_handle_cmd, hseq2]

/-- Witness for C9: seq-0 first command with nonzero beep and flags emits
nothing. -/
theorem first_cmd_seq_zero_emits_no_events_witness :
    (({ seq := 0, actions := { beep_ms := 50, flags := 7 } } : CmdPayload).seq = 0) ∧
    (tcp_handle_cmd none 0 0 { seq := 0, actions := { beep_ms := 50, flags := 7 } }
        3).beep_events = [] ∧
    (tcp_handle_cmd none 0 0 { seq := 0, actions := { beep_ms := 50, flags := 7 } }
        3).sys_events = [] :=
  ⟨rfl,
   (first_cmd_seq_zero_emits_no_events none
      { seq := 0, actions := { beep_ms := 50, flags := 7 } } 3 rfl).1,
   (first_cmd_seq_zero_emits_no_events none
      { seq := 0, actions := { beep_ms := 50, flags := 7 } } 3 rfl).2.1⟩

/-! ## TCP worker: config hot reload (tcp_worker.cpp apply_config_payload) -/

/-- tcp_worker.cpp clampd. -/
def clampd (v lo hi : ℚ) : ℚ := if v < lo then lo else if hi < v then hi else v

def is_valid_control_mode (m : Nat) : Bool := m ≤ 2

def is_valid_usb_timeout_mode (m : Nat) : Bool := m ≤ 1

def usb_timeout_mode_of_u8 (m : Nat) : UsbTimeoutMode :=
  if m = 0 then .ENFORCE else .DISABLE

def control_mode_of_u8 (m : Nat) : ControlMode :=
  if m = 0 then .PASS_THROUGH_CMD
  else if m = 1 then .AUTONOMOUS
  else .AUTONOMOUS_WITH_REMOTE_SETPOINT

/-- C++ double-to-uint32 conversion for the nonnegative in-range values that
occur here (truncation toward zero, i.e. floor). -/
def double_to_u32 (q : ℚ) : Nat := (Int.floor q).toNat

/-- int16_t of a u16 bit pattern (key 30). -/
def int16_of_u16 (u : Nat) : Int :=
  if u % 65536 < 32768 then (u % 65536 : Nat) else (u % 65536 : Nat) - 65536

def config_applied_event (seq key : Nat) : EventCmd :=
  { type := .CONFIG_APPLIED, seq := seq, data0 := key }

/-- apply_config_payload: copy the current snapshot (default-constructed when
none), modify the field selected by the key with clamping, and emit a
CONFIG_APPLIED event in every case (known or unknown key). -/
def apply_config_payload (cur : Option RuntimeConfig) (p : ConfigPayload) :
    RuntimeConfig × EventCmd :=
  let base := cur.getD {}
  let next :=
    match p.key with
    | 1 => { base with usb_hz := clampd (p.u16 : ℚ) 1 2000 }
    | 2 => { base with tcp_hz := clampd (p.u16 : ℚ) 1 2000 }
    | 3 => { base with ctrl_hz := clampd (p.u16 : ℚ) 1 2000 }
    | 4 => { base with cmd_timeout_s := clampd ((p.u16 : ℚ) / 1000) (1/100) 5 }
    | 5 => if is_valid_usb_timeout_mode p.u8 then
        { base with usb_timeout_mode := usb_timeout_mode_of_u8 p.u8 }
      else base
    | 6 => { base with log_rotate_mb := double_to_u32 (clampd (p.u16 : ℚ) 1 8192) }
    | 7 => { base with log_rotate_keep := double_to_u32 (clampd (p.u16 : ℚ) 1 200) }
    | 10 => { base with flag_event_mask := p.u8 }
    | 20 => if is_valid_control_mode p.u8 then
        { base with control_mode := control_mode_of_u8 p.u8 }
      else base
    | 30 => { base with ctrl_thread_priority := int16_of_u16 p.u16 }
    | _ => base
  (next, config_applied_event p.seq p.key)

/-- The clamping ranges the spec promises for config snapshots. -/
def ConfigInRanges (c : RuntimeConfig) : Prop :=
  1 ≤ c.usb_hz ∧ c.usb_hz ≤ 2000 ∧
  1 ≤ c.tcp_hz ∧ c.tcp_hz ≤ 2000 ∧
  1 ≤ c.ctrl_hz ∧ c.ctrl_hz ≤ 2000 ∧
  1/100 ≤ c.cmd_timeout_s ∧ c.cmd_timeout_s ≤ 5 ∧
  1 ≤ c.log_rotate_mb ∧ c.log_rotate_mb ≤ 8192 ∧
  1 ≤ c.log_rotate_keep ∧ c.log_rotate_keep ≤ 200

instance (c : RuntimeConfig) : Decidable (ConfigInRanges c) := by
  unfold ConfigInRanges; infer_instance

theorem clampd_bounds (v lo hi : ℚ) (h : lo ≤ hi) :
    lo ≤ clampd v lo hi ∧ clampd v lo hi ≤ hi := by
  unfold clampd
  split_ifs <;> constructor <;> linarith

theorem double_to_u32_bounds (q : ℚ) (a b : Nat) (hlo : (a : ℚ) ≤ q)
    (hhi : q ≤ (b : ℚ)) : a ≤ double_to_u32 q ∧ double_to_u32 q ≤ b := by
  unfold double_to_u32
  have h1 : (a : Int) ≤ Int.floor q := Int.le_floor.mpr (by exact_mod_cast hlo)
  have h2 : Int.floor q ≤ (b : Int) := by
    calc Int.floor q ≤ Int.floor ((b : ℚ)) := Int.floor_le_floor hhi
    _ = (b : Int) := by exact_mod_cast Int.floor_intCast (b : Int)
  omega

/-- C7. Config hot reload: applying any MSG_CONFIG payload clamps
out-of-range values instead of rejecting them -- starting from a snapshot
within the documented ranges, the new snapshot still has
usb_hz/tcp_hz/ctrl_hz in [1, 2000], cmd_timeout_s in [0.01, 5],
log_rotate_mb in [1, 8192] and log_rotate_keep in [1, 200]; an unknown key
leaves every field of the snapshot unchanged; and a CONFIG_APPLIED event
carrying the payload seq and key is emitted in every case. -/
theorem config_hot_reload_clamps (cur : Option RuntimeConfig) (p : ConfigPayload)
    (hbase : ConfigInRanges (cur.getD {})) :
    ConfigInRanges (apply_config_payload cur p).1 ∧
    (p.key ∉ ([1, 2, 3, 4, 5, 6, 7, 10, 20, 30] : List Nat) →
      (apply_config_payload cur p).1 = cur.getD {}) ∧
    (apply_config_payload cur p).2 = config_applied_event p.seq p.key := by
  obtain ⟨r1, r2, r3, r4, r5, r6, r7, r8, r9, r10, r11, r12⟩ := hbase
  unfold apply_config_payload
  refine ⟨?_, ?_, rfl⟩
  · dsimp only
    split
    · exact ⟨(clampd_bounds _ 1 2000 (by norm_num)).1,
        (clampd_bounds _ 1 2000 (by norm_num)).2, r3, r4, r5, r6, r7, r8, r9, r10, r11, r12⟩
    · exact ⟨r1, r2, (clampd_bounds _ 1 2000 (by norm_num)).1,
        (clampd_bounds _ 1 2000 (by norm_num)).2, r5, r6, r7, r8, r9, r10, r11, r12⟩
    · exact ⟨r1, r2, r3, r4, (clampd_bounds _ 1 2000 (by norm_num)).1,
        (clampd_bounds _ 1 2000 (by norm_num)).2, r7, r8, r9, r10, r11, r12⟩
    · exact ⟨r1, r2, r3, r4, r5, r6, (clampd_bounds _ (1/100) 5 (by norm_num)).1,
        (clampd_bounds _ (1/100) 5 (by norm_num)).2, r9, r10, r11, r12⟩
    · split <;> exact ⟨r1, r2, r3, r4, r5, r6, r7, r8, r9, r10, r11, r12⟩
    · refine ⟨r1, r2, r3, r4, r5, r6, r7, r8, ?_, ?_, r11, r12⟩
      · exact (double_to_u32_bounds _ 1 8192
          (clampd_bounds _ 1 8192 (by norm_num)).1
          (clampd_bounds _ 1 8192 (by norm_num)).2).1
      · exact (double_to_u32_bounds _ 1 8192
          (clampd_bounds _ 1 8192 (by norm_num)).1
          (clampd_bounds _ 1 8192 (by norm_num)).2).2
    · refine ⟨r1, r2, r3, r4, r5, r6, r7, r8, r9, r10, ?_, ?_⟩
      · exact (double_to_u32_bounds _ 1 200
          (clampd_bounds _ 1 200 (by norm_num)).1
          (clampd_bounds _ 1 200 (by norm_num)).2).1
      · exact (double_to_u32_bounds _ 1 200
          (clampd_bounds _ 1 200 (by norm_num)).1
          (clampd_bounds _ 1 200 (by norm_num)).2).2
    · exact ⟨r1, r2, r3, r4, r5, r6, r7, r8, r9, r10, r11, r12⟩
    · split <;> exact ⟨r1, r2, r3, r4, r5, r6, r7, r8, r9, r10, r11, r12⟩
    · exact ⟨r1, r2, r3, r4, r5, r6, r7, r8, r9, r10, r11, r12⟩
    · exact ⟨r1, r2, r3, r4, r5, r6, r7, r8, r9, r10, r11, r12⟩
  · intro hmem
    dsimp only
    split
    all_goals first
      | rfl
      | (exfalso; apply hmem; rename_i hkey; simp [hkey])
/-- Witness for C7: key 4 with u16 = 50000 (50 s) clamps the timeout to 5 s
from the default snapshot. -/
theorem config_hot_reload_clamps_witness :
    ConfigInRanges ((none : Option RuntimeConfig).getD {}) ∧
    ConfigInRanges (apply_config_payload none { seq := 7, key := 4, u16 := 50000 }).1 ∧
    (apply_config_payload none { seq := 7, key := 4, u16 := 50000 }).2 =
      config_applied_event 7 4 ∧
    (apply_config_payload none { seq := 7, key := 4, u16 := 50000 }).1.cmd_timeout_s = 5 :=
  ⟨by norm_num [ConfigInRanges],
   (config_hot_reload_clamps none _ (by norm_num [ConfigInRanges])).1,
   (config_hot_reload_clamps none _ (by norm_num [ConfigInRanges])).2.2,
   by norm_num [apply_config_payload, clampd]⟩

/-! ## Rotating binary log (src/cpp_gateway/src/utils/rotating_binary_log.cpp,
include/utils/binary_log.hpp)

FileHeader is 8 bytes, RecordHeader 20 bytes, a record payload length is a
uint16_t.  The embedding tracks the byte accounting the rotation decision
uses (I/O is assumed to succeed; the writer stays open); `closed` records
(size, record count) of each closed segment, oldest first. -/

def sizeofFileHeader : Nat := 8
def sizeofRecordHeader : Nat := 20
def maxRecordPayload : Nat := 65535

structure LogState where
  max_bytes : Nat
  index : Nat
  bytes_written : Nat
  cur_records : Nat
  closed : List (Nat × Nat)
deriving DecidableEq, Repr

/-- open_new_file: names the segment with the current index, increments the
index, and the fresh segment starts with a FileHeader. -/
def open_new_file (s : LogState) : LogState :=
  { s with index := s.index + 1, bytes_written := sizeofFileHeader,
           cur_records := 0 }

/-- RotatingBinaryLog::open: reset counters, then open the first segment. -/
def open_log (max_bytes : Nat) : LogState :=
  open_new_file { max_bytes := max_bytes, index := 0, bytes_written := 0,
                  cur_records := 0, closed := [] }

/-- rotate_if_needed: no-op when rotation is disabled (max_bytes = 0) or the
record still fits; otherwise close the segment and open a new one. -/
def rotate_if_needed (s : LogState) (bytes_to_add : Nat) : LogState :=
  if s.max_bytes = 0 then s
  else if s.bytes_written + bytes_to_add ≤ s.max_bytes then s
  else open_new_file { s with closed := s.closed ++ [(s.bytes_written, s.cur_records)] }

/-- write_record for a record with payload length n: rotate if needed, then
append RecordHeader + payload. -/
def write_record (s : LogState) (n : Nat) : LogState :=
  let s1 := rotate_if_needed s (sizeofRecordHeader + n)
  { s1 with bytes_written := s1.bytes_written + (sizeofRecordHeader + n),
            cur_records := s1.cur_records + 1 }

def write_records (s : LogState) (ns : List Nat) : LogState :=
  ns.foldl write_record s

/-- Segment-size invariant maintained across writes: the current segment
either fits in max_bytes or holds exactly one oversized record, records
never shrink a segment below its FileHeader, and every closed segment obeys
the claimed bound. -/
def LogInv (M : Nat) (s : LogState) : Prop :=
  s.max_bytes = M ∧ sizeofFileHeader ≤ s.bytes_written ∧
  (s.bytes_written ≤ M ∨
    (s.cur_records = 1 ∧
     s.bytes_written ≤ sizeofFileHeader + sizeofRecordHeader + maxRecordPayload)) ∧
  (s.cur_records = 0 → s.bytes_written = sizeofFileHeader) ∧
  ∀ pr ∈ s.closed, pr.1 ≤ M ∨
    (pr.2 = 1 ∧ pr.1 ≤ sizeofFileHeader + sizeofRecordHeader + maxRecordPayload)

theorem write_record_inv (M : Nat) (hM : sizeofFileHeader ≤ M) (s : LogState)
    (n : Nat) (hn : n ≤ maxRecordPayload) (h : LogInv M s) :
    LogInv M (write_record s n) := by
  obtain ⟨h1, h2, h3, h4, h5⟩ := h
  unfold write_record rotate_if_needed open_new_file
  unfold sizeofFileHeader sizeofRecordHeader maxRecordPayload at *
  split_ifs with hz hfit
  · omega
  · refine ⟨h1, by dsimp only [sizeofFileHeader, sizeofRecordHeader, maxRecordPayload]; omega, by dsimp only [sizeofFileHeader, sizeofRecordHeader, maxRecordPayload]; omega, by dsimp only [sizeofFileHeader, sizeofRecordHeader, maxRecordPayload]; omega, h5⟩
  · refine ⟨h1, by dsimp only [sizeofFileHeader, sizeofRecordHeader, maxRecordPayload]; omega, by dsimp only [sizeofFileHeader, sizeofRecordHeader, maxRecordPayload]; omega, by dsimp only [sizeofFileHeader, sizeofRecordHeader, maxRecordPayload]; omega, ?_⟩
    intro pr hpr
    simp only [List.mem_append, List.mem_singleton] at hpr
    rcases hpr with hpr | hpr
    · exact h5 pr hpr
    · subst hpr
      rcases h3 with h3 | h3
      · exact Or.inl h3
      · exact Or.inr h3

theorem write_records_inv (M : Nat) (hM : sizeofFileHeader ≤ M)
    (ns : List Nat) (hns : ∀ n ∈ ns, n ≤ maxRecordPayload) (s : LogState)
    (h : LogInv M s) : LogInv M (write_records s ns) := by
  induction ns generalizing s with
  | nil => exact h
  | cons n t ih =>
    exact ih (fun m hm => hns m (List.mem_cons_of_mem n hm))
      (write_record s n)
      (write_record_inv M hM s n (hns n (List.mem_cons_self n t)) h)

theorem open_log_inv (M : Nat) (hM : sizeofFileHeader ≤ M) :
    LogInv M (open_log M) := by
  unfold open_log open_new_file LogInv
  unfold sizeofFileHeader at *
  exact ⟨rfl, by dsimp only [sizeofFileHeader, sizeofRecordHeader, maxRecordPayload]; omega, by dsimp only [sizeofFileHeader, sizeofRecordHeader, maxRecordPayload]; omega, by dsimp only [sizeofFileHeader, sizeofRecordHeader, maxRecordPayload]; omega, by simp⟩

/-! ## Claim theorems: log rotation -/

/-- C8 counterexample: for 0 < max_bytes < sizeof(FileHeader) the very first
record forces a rotation that closes a segment of 8 bytes -- a bare
FileHeader holding no record at all -- whose size exceeds max_bytes, so the
claimed bound (at most M except a segment holding a single oversized
record) fails as stated for arbitrary M > 0. -/
theorem log_rotation_bare_header_cex :
    0 < 5 ∧
    (write_record (open_log 5) 0).closed = [(8, 0)] ∧
    ¬((8 : Nat) ≤ 5 ∨ ((0 : Nat) = 1 ∧ (8 : Nat) ≤ 8 + 20 + 65535)) := by
  refine ⟨by decide, by decide, by decide⟩

/-- C8 (amended).  With rotation limit M at least sizeof(FileHeader), a
record of k = RecordHeader + payload bytes triggers rotation exactly when
bytes_written + k > M (closing the segment, incrementing the index, and
starting the new segment at a fresh 8-byte FileHeader), and every closed
segment's size is at most M except a segment holding a single record larger
than M, which is at most sizeof(FileHeader) + sizeof(RecordHeader) + the
maximum record payload (8 + 20 + 65535).  For 0 < M < 8 the first closed
segment is a bare FileHeader exceeding M with no records in it. -/
theorem log_rotation_bound (M : Nat) (ns : List Nat)
    (hM : sizeofFileHeader ≤ M) (hns : ∀ n ∈ ns, n ≤ maxRecordPayload) :
    (∀ pr ∈ (write_records (open_log M) ns).closed,
       pr.1 ≤ M ∨
       (pr.2 = 1 ∧
        pr.1 ≤ sizeofFileHeader + sizeofRecordHeader + maxRecordPayload)) ∧
    (∀ (s : LogState) (n : Nat), s.max_bytes = M →
      (M < s.bytes_written + (sizeofRecordHeader + n) →
        (write_record s n).closed =
          s.closed ++ [(s.bytes_written, s.cur_records)] ∧
        (write_record s n).index = s.index + 1 ∧
        (write_record s n).bytes_written =
          sizeofFileHeader + (sizeofRecordHeader + n)) ∧
      (s.bytes_written + (sizeofRecordHeader + n) ≤ M →
        write_record s n =
          { s with bytes_written := s.bytes_written + (sizeofRecordHeader + n),
                   cur_records := s.cur_records + 1 })) := by
  constructor
  · exact (write_records_inv M hM ns hns (open_log M) (open_log_inv M hM)).2.2.2.2
  · intro s n hmax
    unfold sizeofFileHeader at hM
    constructor
    · intro hover
      unfold write_record rotate_if_needed open_new_file
      split_ifs with hz hfit
      · omega
      · omega
      · exact ⟨rfl, rfl, rfl⟩
    · intro hfits
      unfold write_record rotate_if_needed
      split_ifs with hz hfit
      · omega
      · rfl
      · omega

/-- Witness for C8: M = 100 with three 30-byte-payload records closes two
single-record 58-byte segments. -/
theorem log_rotation_bound_witness :
    sizeofFileHeader ≤ 100 ∧ (∀ n ∈ ([30, 30, 30] : List Nat), n ≤ maxRecordPayload) ∧
    (write_records (open_log 100) [30, 30, 30]).closed = [(58, 1), (58, 1)] ∧
    (∀ pr ∈ (write_records (open_log 100) [30, 30, 30]).closed,
       pr.1 ≤ 100 ∨
       (pr.2 = 1 ∧
        pr.1 ≤ sizeofFileHeader + sizeofRecordHeader + maxRecordPayload)) :=
  ⟨by decide, by decide, by decide,
   (log_rotation_bound 100 [30, 30, 30] (by decide) (by decide)).1⟩

/-! ## SPSC overwrite ring (include/gateway/spsc_overwrite_ring.hpp)

head/tail are the stored indices (always < N, maintained by inc = (i+1) % N
from 0); `buf` embeds std::array<T, N>, written and read only at indices
below N. -/

structure SpscOverwriteRing (T : Type) (N : Nat) where
  buf : Nat → T
  head : Nat
  tail : Nat
  drops : Nat

def ring_inc (N i : Nat) : Nat := (i + 1) % N

/-- push_overwrite: on full (next == tail) bump drops and advance tail, then
write the slot at head and advance head. -/
def push_overwrite {T : Type} {N : Nat} (r : SpscOverwriteRing T N) (v : T) :
    SpscOverwriteRing T N :=
  let next := ring_inc N r.head
  let r1 := if next = r.tail then
      { r with drops := r.drops + 1, tail := ring_inc N r.tail }
    else r
  { r1 with buf := fun j => if j = r.head then v else r1.buf j, head := next }

/-- pop: empty when tail == head, else return the tail slot and advance. -/
def pop {T : Type} {N : Nat} (r : SpscOverwriteRing T N) :
    Option T × SpscOverwriteRing T N :=
  if r.tail = r.head then (none, r)
  else (some (r.buf r.tail), { r with tail := ring_inc N r.tail })

/-- Number of elements observable to the consumer. -/
def ring_size {T : Type} {N : Nat} (r : SpscOverwriteRing T N) : Nat :=
  (r.head + N - r.tail) % N

/-- The observable elements, oldest first. -/
def contents {T : Type} {N : Nat} (r : SpscOverwriteRing T N) : List T :=
  (List.range (ring_size r)).map (fun i => r.buf ((r.tail + i) % N))

/-- A freshly constructed ring: indices and drops zero, slots
value-initialized (d stands for T\x7b\x7d). -/
def emptyRing {T : Type} (N : Nat) (d : T) : SpscOverwriteRing T N :=
  { buf := fun _ => d, head := 0, tail := 0, drops := 0 }

inductive RingOp (T : Type) where
  | push (v : T)
  | popOp
deriving DecidableEq, Repr

/-- Run a sequence of producer pushes and consumer pops; the second component
counts the pops that returned a value. -/
def run_ops {T : Type} {N : Nat} (r : SpscOverwriteRing T N) :
    List (RingOp T) → SpscOverwriteRing T N × Nat
  | [] => (r, 0)
  | .push v :: ops => run_ops (push_overwrite r v) ops
  | .popOp :: ops =>
    let pr := pop r
    let rest := run_ops pr.2 ops
    (rest.1, rest.2 + if pr.1.isSome then 1 else 0)

def push_count {T : Type} : List (RingOp T) → Nat
  | [] => 0
  | .push _ :: ops => push_count ops + 1
  | .popOp :: ops => push_count ops

def pop_op_count {T : Type} : List (RingOp T) → Nat
  | [] => 0
  | .push _ :: ops => pop_op_count ops
  | .popOp :: ops => pop_op_count ops + 1

def push_all {T : Type} {N : Nat} (r : SpscOverwriteRing T N) (L : List T) :
    SpscOverwriteRing T N :=
  L.foldl push_overwrite r

/-- Popping until empty, oldest first (fuel bounds the loop; ring_size is
exactly enough). -/
def drain_fuel {T : Type} {N : Nat} : Nat → SpscOverwriteRing T N → List T
  | 0, _ => []
  | fuel + 1, r =>
    if r.tail = r.head then []
    else r.buf r.tail :: @drain_fuel T N fuel { r with tail := ring_inc N r.tail }

def drain_all {T : Type} {N : Nat} (r : SpscOverwriteRing T N) : List T :=
  drain_fuel (ring_size r) r

/-- Index sanity maintained by all ring operations. -/
def RingInv {T : Type} {N : Nat} (r : SpscOverwriteRing T N) : Prop :=
  r.head < N ∧ r.tail < N

/-! ### Ring helper lemmas -/

theorem mod_cases (x N : Nat) (h : x < 2 * N) :
    x % N = if x < N then x else x - N := by
  split_ifs with hlt
  · exact Nat.mod_eq_of_lt hlt
  · rw [Nat.mod_eq_sub_mod (by omega)]
    exact Nat.mod_eq_of_lt (by omega)

theorem ring_inc_formula (N i : Nat) (h : i < N) :
    ring_inc N i = if i + 1 = N then 0 else i + 1 := by
  unfold ring_inc
  rw [mod_cases _ N (by omega)]
  split_ifs <;> omega

theorem ring_inc_lt (N i : Nat) (h : i < N) : ring_inc N i < N := by
  rw [ring_inc_formula N i h]
  split_ifs <;> omega

theorem ring_size_formula {T : Type} {N : Nat} (r : SpscOverwriteRing T N)
    (hinv : RingInv r) :
    ring_size r = if r.tail ≤ r.head then r.head - r.tail
      else r.head + N - r.tail := by
  obtain ⟨hh, ht⟩ := hinv
  unfold ring_size
  rw [mod_cases _ N (by omega)]
  split_ifs <;> omega

theorem ring_size_lt {T : Type} {N : Nat} (r : SpscOverwriteRing T N)
    (hinv : RingInv r) : ring_size r < N := by
  rw [ring_size_formula r hinv]
  obtain ⟨hh, ht⟩ := hinv
  split_ifs <;> omega

theorem ring_size_zero_iff {T : Type} {N : Nat} (r : SpscOverwriteRing T N)
    (hinv : RingInv r) : ring_size r = 0 ↔ r.tail = r.head := by
  rw [ring_size_formula r hinv]
  obtain ⟨hh, ht⟩ := hinv
  split_ifs <;> omega

theorem ring_full_iff {T : Type} {N : Nat} (r : SpscOverwriteRing T N)
    (hN : 2 ≤ N) (hinv : RingInv r) :
    ring_inc N r.head = r.tail ↔ ring_size r = N - 1 := by
  obtain ⟨hh, ht⟩ := hinv
  rw [ring_inc_formula N r.head hh, ring_size_formula r ⟨hh, ht⟩]
  split_ifs <;> omega

theorem ring_index_hit {T : Type} {N : Nat} (r : SpscOverwriteRing T N)
    (hinv : RingInv r) (i : Nat) (hi : i < N) :
    (r.tail + i) % N = r.head ↔ i = ring_size r := by
  obtain ⟨hh, ht⟩ := hinv
  rw [mod_cases (r.tail + i) N (by omega), ring_size_formula r ⟨hh, ht⟩]
  split_ifs <;> omega

theorem contents_length {T : Type} {N : Nat} (r : SpscOverwriteRing T N) :
    (contents r).length = ring_size r := by
  simp [contents]

/-! ### Ring step lemmas and claim theorems -/

theorem size_inc_head (N hd tl : Nat) (hh : hd < N) (ht : tl < N)
    (hnf : (hd + N - tl) % N ≠ N - 1) :
    ((hd + 1) % N + N - tl) % N = (hd + N - tl) % N + 1 := by
  rw [mod_cases (hd + N - tl) N (by omega)] at hnf ⊢
  rw [mod_cases (hd + 1) N (by omega)]
  split_ifs at hnf ⊢ with h1 h2 h3
  all_goals rw [mod_cases _ N (by omega)]
  all_goals split_ifs <;> omega

theorem size_full_shift (N hd tl : Nat) (hh : hd < N) (ht : tl < N)
    (hfull : (hd + 1) % N = tl) :
    (tl + N - (tl + 1) % N) % N = N - 1 := by
  rw [mod_cases (hd + 1) N (by omega)] at hfull
  rw [mod_cases (tl + 1) N (by omega)]
  split_ifs at hfull ⊢ <;> rw [mod_cases _ N (by omega)] <;> split_ifs <;> omega

theorem size_pop_shift (N hd tl : Nat) (hh : hd < N) (ht : tl < N)
    (hne : tl ≠ hd) :
    (hd + N - (tl + 1) % N) % N = (hd + N - tl) % N - 1 := by
  rw [mod_cases (tl + 1) N (by omega), mod_cases (hd + N - tl) N (by omega)]
  split_ifs <;> rw [mod_cases _ N (by omega)] <;> split_ifs <;> omega

theorem push_overwrite_not_full {T : Type} {N : Nat} (r : SpscOverwriteRing T N)
    (v : T) (hN : 2 ≤ N) (hinv : RingInv r) (hnf : ring_size r ≠ N - 1) :
    RingInv (push_overwrite r v) ∧
    (push_overwrite r v).drops = r.drops ∧
    ring_size (push_overwrite r v) = ring_size r + 1 ∧
    contents (push_overwrite r v) = contents r ++ [v] := by
  obtain ⟨hh, ht⟩ := hinv
  have hfull : ring_inc N r.head ≠ r.tail := by
    intro h
    exact hnf ((ring_full_iff r hN ⟨hh, ht⟩).mp h)
  have hpush : push_overwrite r v =
      @SpscOverwriteRing.mk T N (fun j => if j = r.head then v else r.buf j)
        (ring_inc N r.head) r.tail r.drops := by
    unfold push_overwrite
    dsimp only
    rw [if_neg hfull]
  have hsz : ring_size (push_overwrite r v) = ring_size r + 1 := by
    rw [hpush]
    show (ring_inc N r.head + N - r.tail) % N = ring_size r + 1
    unfold ring_inc ring_size
    exact size_inc_head N r.head r.tail hh ht hnf
  refine ⟨?_, ?_, hsz, ?_⟩
  · rw [hpush]
    exact ⟨ring_inc_lt N r.head hh, ht⟩
  · rw [hpush]
  · unfold contents
    rw [hsz, hpush]
    dsimp only
    rw [List.range_succ, List.map_append, List.map_singleton]
    congr 1
    · apply List.map_congr_left
      intro i hi
      rw [List.mem_range] at hi
      have hiN : i < N := by
        have := ring_size_lt r ⟨hh, ht⟩
        omega
      rw [if_neg]
      intro hhit
      rw [ring_index_hit r ⟨hh, ht⟩ i hiN] at hhit
      omega
    · rw [if_pos]
      rw [ring_index_hit r ⟨hh, ht⟩ (ring_size r) (ring_size_lt r ⟨hh, ht⟩)]

theorem push_overwrite_full {T : Type} {N : Nat} (r : SpscOverwriteRing T N)
    (v : T) (hN : 2 ≤ N) (hinv : RingInv r) (hf : ring_size r = N - 1) :
    RingInv (push_overwrite r v) ∧
    (push_overwrite r v).drops = r.drops + 1 ∧
    ring_size (push_overwrite r v) = N - 1 ∧
    contents (push_overwrite r v) = (contents r).drop 1 ++ [v] := by
  obtain ⟨hh, ht⟩ := hinv
  have hfull : ring_inc N r.head = r.tail := (ring_full_iff r hN ⟨hh, ht⟩).mpr hf
  have hpush : push_overwrite r v =
      @SpscOverwriteRing.mk T N (fun j => if j = r.head then v else r.buf j)
        (ring_inc N r.head) (ring_inc N r.tail) (r.drops + 1) := by
    unfold push_overwrite
    dsimp only
    rw [if_pos hfull]
  have hsz : ring_size (push_overwrite r v) = N - 1 := by
    rw [hpush]
    show (ring_inc N r.head + N - ring_inc N r.tail) % N = N - 1
    rw [hfull]
    show (r.tail + N - ring_inc N r.tail) % N = N - 1
    unfold ring_inc
    exact size_full_shift N r.head r.tail hh ht hfull
  have hidx : ∀ i : Nat, (ring_inc N r.tail + i) % N = (r.tail + (1 + i)) % N := by
    intro i
    unfold ring_inc
    rw [Nat.mod_add_mod, Nat.add_assoc]
  obtain ⟨k, hk⟩ : ∃ k, N - 1 = k + 1 := ⟨N - 2, by omega⟩
  refine ⟨?_, ?_, hsz, ?_⟩
  · rw [hpush]
    exact ⟨ring_inc_lt N r.head hh, ring_inc_lt N r.tail ht⟩
  · rw [hpush]
  · unfold contents
    rw [hsz, hpush, hf]
    dsimp only
    rw [hk]
    conv_lhs => rw [List.range_succ, List.map_append, List.map_singleton]
    conv_rhs => rw [List.range_succ_eq_map, List.map_cons, List.drop_one,
      List.tail_cons, List.map_map]
    congr 1
    · apply List.map_congr_left
      intro i hi
      rw [List.mem_range] at hi
      rw [hidx i]
      have hiN : 1 + i < N := by omega
      rw [if_neg]
      · show r.buf ((r.tail + (1 + i)) % N) = r.buf ((r.tail + Nat.succ i) % N)
        congr 2
        omega
      · intro hhit
        rw [ring_index_hit r ⟨hh, ht⟩ (1 + i) hiN] at hhit
        omega
    · rw [hidx k, if_pos]
      rw [ring_index_hit r ⟨hh, ht⟩ (1 + k) (by omega)]
      omega

theorem pop_nonempty {T : Type} {N : Nat} (r : SpscOverwriteRing T N)
    (hinv : RingInv r) (hne : ring_size r ≠ 0) :
    (pop r).1 = some (r.buf r.tail) ∧
    RingInv (pop r).2 ∧ (pop r).2.drops = r.drops ∧
    ring_size (pop r).2 = ring_size r - 1 ∧
    contents r = r.buf r.tail :: contents (pop r).2 := by
  obtain ⟨hh, ht⟩ := hinv
  have htne : r.tail ≠ r.head := by
    intro h
    exact hne ((ring_size_zero_iff r ⟨hh, ht⟩).mpr h)
  have hpop : pop r = (some (r.buf r.tail),
      @SpscOverwriteRing.mk T N r.buf r.head (ring_inc N r.tail) r.drops) := by
    unfold pop
    rw [if_neg htne]
  have hsz : ring_size (pop r).2 = ring_size r - 1 := by
    rw [hpop]
    show (r.head + N - ring_inc N r.tail) % N = ring_size r - 1
    unfold ring_inc ring_size
    exact size_pop_shift N r.head r.tail hh ht htne
  have hidx : ∀ i : Nat, (ring_inc N r.tail + i) % N = (r.tail + (1 + i)) % N := by
    intro i
    unfold ring_inc
    rw [Nat.mod_add_mod, Nat.add_assoc]
  obtain ⟨m, hm⟩ : ∃ m, ring_size r = m + 1 := ⟨ring_size r - 1, by omega⟩
  refine ⟨by rw [hpop], ?_, by rw [hpop], hsz, ?_⟩
  · rw [hpop]
    exact ⟨hh, ring_inc_lt N r.tail ht⟩
  · unfold contents
    rw [hsz, hm, hpop]
    dsimp only
    conv_lhs => rw [List.range_succ_eq_map, List.map_cons, List.map_map]
    congr 1
    · show r.buf ((r.tail + 0) % N) = r.buf r.tail
      congr 1
      rw [Nat.add_zero]
      exact Nat.mod_eq_of_lt ht
    · apply List.map_congr_left
      intro i hi
      show r.buf ((r.tail + Nat.succ i) % N) = _
      rw [hidx i]
      congr 2
      omega

theorem pop_empty {T : Type} {N : Nat} (r : SpscOverwriteRing T N)
    (hinv : RingInv r) (hz : ring_size r = 0) : pop r = (none, r) := by
  unfold pop
  rw [if_pos ((ring_size_zero_iff r hinv).mp hz)]

theorem run_ops_accounting {T : Type} {N : Nat} (hN : 2 ≤ N)
    (ops : List (RingOp T)) :
    ∀ r : SpscOverwriteRing T N, RingInv r →
      RingInv (run_ops r ops).1 ∧
      (run_ops r ops).1.drops + (run_ops r ops).2 +
        ring_size (run_ops r ops).1 =
        r.drops + ring_size r + push_count ops := by
  induction ops with
  | nil =>
    intro r hinv
    exact ⟨hinv, by simp [run_ops, push_count]⟩
  | cons op ops ih =>
    intro r hinv
    cases op with
    | push v =>
      by_cases hfull : ring_size r = N - 1
      · obtain ⟨h1, h2, h3, _⟩ := push_overwrite_full r v hN hinv hfull
        obtain ⟨ha, hb⟩ := ih (push_overwrite r v) h1
        refine ⟨ha, ?_⟩
        simp only [run_ops, push_count] at hb ⊢
        omega
      · obtain ⟨h1, h2, h3, _⟩ := push_overwrite_not_full r v hN hinv hfull
        obtain ⟨ha, hb⟩ := ih (push_overwrite r v) h1
        refine ⟨ha, ?_⟩
        simp only [run_ops, push_count] at hb ⊢
        omega
    | popOp =>
      by_cases hz : ring_size r = 0
      · obtain ⟨ha, hb⟩ := ih r hinv
        have hpe := pop_empty r hinv hz
        refine ⟨?_, ?_⟩
        · simpa [run_ops, hpe] using ha
        · simp [run_ops, push_count, hpe] at hb ⊢
          omega
      · obtain ⟨h1, h2, h3, h4, _⟩ := pop_nonempty r hinv hz
        obtain ⟨ha, hb⟩ := ih (pop r).2 h2
        refine ⟨?_, ?_⟩
        · simpa [run_ops] using ha
        · rw [h3, h4] at hb
          simp [run_ops, push_count, h1] at hb ⊢
          omega

theorem ring_size_empty {T : Type} {N : Nat} (d : T) :
    ring_size (emptyRing N d : SpscOverwriteRing T N) = 0 := by
  unfold ring_size emptyRing
  simp

theorem push_all_burst {T : Type} {N : Nat} (hN : 2 ≤ N) (d : T) (L : List T) :
    RingInv (push_all (emptyRing N d) L) ∧
    (push_all (emptyRing N d) L).drops = L.length - (N - 1) ∧
    contents (push_all (emptyRing N d) L) = L.drop (L.length - (N - 1)) := by
  induction L using List.reverseRecOn with
  | nil =>
    have hpe : push_all (emptyRing N d) ([] : List T) = emptyRing N d := rfl
    rw [hpe]
    refine ⟨⟨by simp only [emptyRing]; omega, by simp only [emptyRing]; omega⟩,
      by simp [emptyRing], ?_⟩
    unfold contents
    rw [ring_size_empty d]
    simp
  | append_singleton L v ih =>
    obtain ⟨h1, h2, h3⟩ := ih
    have hstep : push_all (emptyRing N d) (L ++ [v]) =
        push_overwrite (push_all (emptyRing N d) L) v := by
      unfold push_all
      rw [List.foldl_append]
      rfl
    have hlen : ring_size (push_all (emptyRing N d) L) =
        L.length - (L.length - (N - 1)) := by
      rw [← contents_length, h3, List.length_drop]
    by_cases hcase : L.length ≤ N - 2
    · have hnf : ring_size (push_all (emptyRing N d) L) ≠ N - 1 := by omega
      obtain ⟨g1, g2, g3, g4⟩ :=
        push_overwrite_not_full (push_all (emptyRing N d) L) v hN h1 hnf
      rw [hstep]
      refine ⟨g1, ?_, ?_⟩
      · rw [g2, h2]
        simp only [List.length_append, List.length_singleton]
        omega
      · rw [g4, h3]
        have hz1 : L.length - (N - 1) = 0 := by omega
        have hz2 : (L ++ [v]).length - (N - 1) = 0 := by
          simp only [List.length_append, List.length_singleton]
          omega
        rw [hz1, hz2, List.drop_zero, List.drop_zero]
    · have hf : ring_size (push_all (emptyRing N d) L) = N - 1 := by omega
      obtain ⟨g1, g2, g3, g4⟩ :=
        push_overwrite_full (push_all (emptyRing N d) L) v hN h1 hf
      rw [hstep]
      refine ⟨g1, ?_, ?_⟩
      · rw [g2, h2]
        simp only [List.length_append, List.length_singleton]
        omega
      · rw [g4, h3, List.drop_drop]
        rw [List.drop_append_eq_append_drop]
        have hle : (L ++ [v]).length - (N - 1) = 1 + (L.length - (N - 1)) := by
          simp only [List.length_append, List.length_singleton]
          omega
        rw [hle]
        have hz : 1 + (L.length - (N - 1)) - L.length = 0 := by omega
        rw [hz, List.drop_zero]
        have hc : L.length - (N - 1) + 1 = 1 + (L.length - (N - 1)) := by omega
        rw [hc]

theorem drain_fuel_contents {T : Type} {N : Nat} :
    ∀ (fuel : Nat) (r : SpscOverwriteRing T N), RingInv r →
      ring_size r = fuel → drain_fuel fuel r = contents r := by
  intro fuel
  induction fuel with
  | zero =>
    intro r hinv hsz
    unfold drain_fuel contents
    rw [hsz]
    simp
  | succ m ih =>
    intro r hinv hsz
    have hne : ring_size r ≠ 0 := by omega
    obtain ⟨h1, h2, h3, h4, h5⟩ := pop_nonempty r hinv hne
    have htne : r.tail ≠ r.head := by
      intro h
      exact hne ((ring_size_zero_iff r hinv).mpr h)
    have hstate : ({ r with tail := ring_inc N r.tail } : SpscOverwriteRing T N)
        = (pop r).2 := by
      unfold pop
      rw [if_neg htne]
    unfold drain_fuel
    rw [if_neg htne, h5, hstate]
    congr 1
    exact ih (pop r).2 h2 (by omega)

/-- C3 counterexample: with capacity N = 4, pushing 4 values (one drop: the
ring holds at most 3) and then popping 3 times leaves drops = 1, while the
claimed formula max(0, pushes - pops - (N-1)) = max(0, 4 - 3 - 3) evaluates
to 0; successful pops also number 3, so the formula fails under either
reading of "pops". -/
theorem ring_drops_formula_cex :
    push_count ([.push 1, .push 2, .push 3, .push 4, .popOp, .popOp, .popOp] :
      List (RingOp Nat)) = 4 ∧
    pop_op_count ([.push 1, .push 2, .push 3, .push 4, .popOp, .popOp, .popOp] :
      List (RingOp Nat)) = 3 ∧
    (run_ops (emptyRing 4 0)
      ([.push 1, .push 2, .push 3, .push 4, .popOp, .popOp, .popOp] :
        List (RingOp Nat))).2 = 3 ∧
    (run_ops (emptyRing 4 0)
      ([.push 1, .push 2, .push 3, .push 4, .popOp, .popOp, .popOp] :
        List (RingOp Nat))).1.drops = 1 ∧
    max 0 (4 - 3 - (4 - 1)) = 0 ∧
    (run_ops (emptyRing 4 0)
      ([.push 1, .push 2, .push 3, .push 4, .popOp, .popOp, .popOp] :
        List (RingOp Nat))).1.drops ≠ max 0 (4 - 3 - (4 - 1)) := by
  refine ⟨rfl, rfl, rfl, rfl, rfl, by decide⟩

/-- C3 (amended).  For every ring of capacity N ≥ 2: (a) at most N-1
elements are ever observable to the consumer; (b) for every operation
sequence from an idle ring, drops + successful pops + currently observable
elements = pushes (so drops = pushes - pops - observable exactly); (c) for a
burst of P pushes into an idle ring with no pops, drops is exactly
max(0, P - (N-1)) (truncated subtraction) and exactly the last
min(P, N-1) pushed items are observable and poppable, in order.  The
claim's formula max(0, pushes - pops - (N-1)) holds for such bursts but not
for arbitrary interleavings (see the counterexample). -/
theorem ring_overwrite_laws (T : Type) (N : Nat) (hN : 2 ≤ N) :
    (∀ r : SpscOverwriteRing T N, RingInv r → (contents r).length ≤ N - 1) ∧
    (∀ (d : T) (ops : List (RingOp T)),
      (run_ops (emptyRing N d) ops).1.drops + (run_ops (emptyRing N d) ops).2 +
        ring_size (run_ops (emptyRing N d) ops).1 = push_count ops) ∧
    (∀ (d : T) (L : List T),
      (push_all (emptyRing N d) L).drops = L.length - (N - 1) ∧
      contents (push_all (emptyRing N d) L) = L.drop (L.length - (N - 1)) ∧
      drain_all (push_all (emptyRing N d) L) = L.drop (L.length - (N - 1))) := by
  have hinv0 : ∀ d : T, RingInv (emptyRing N d : SpscOverwriteRing T N) := by
    intro d
    exact ⟨by simp only [emptyRing]; omega, by simp only [emptyRing]; omega⟩
  refine ⟨?_, ?_, ?_⟩
  · intro r hinv
    rw [contents_length]
    have := ring_size_lt r hinv
    omega
  · intro d ops
    have h := run_ops_accounting hN ops (emptyRing N d) (hinv0 d)
    rw [ring_size_empty d] at h
    have hd : (emptyRing N d : SpscOverwriteRing T N).drops = 0 := rfl
    rw [hd] at h
    omega
  · intro d L
    obtain ⟨h1, h2, h3⟩ := push_all_burst hN d L
    refine ⟨h2, h3, ?_⟩
    unfold drain_all
    rw [drain_fuel_contents (ring_size (push_all (emptyRing N d) L))
      (push_all (emptyRing N d) L) h1 rfl, h3]

/-- Witness for C3 at the spec's S5 scenario: 5000 pushes into an idle
capacity-4096 ring leave exactly the last 4095 pushed items poppable and
drops = 905. -/
theorem ring_overwrite_laws_witness :
    2 ≤ 4096 ∧
    (push_all (emptyRing 4096 (0 : Nat)) (List.range 5000)).drops = 905 ∧
    contents (push_all (emptyRing 4096 (0 : Nat)) (List.range 5000)) =
      (List.range 5000).drop 905 ∧
    drain_all (push_all (emptyRing 4096 (0 : Nat)) (List.range 5000)) =
      (List.range 5000).drop 905 := by
  have h := (ring_overwrite_laws Nat 4096 (by norm_num)).2.2 0 (List.range 5000)
  obtain ⟨h1, h2, h3⟩ := h
  rw [List.length_range] at h1 h2 h3
  norm_num at h1 h2 h3
  exact ⟨by norm_num, h1, h2, h3⟩

end StmGateway
